import Mathlib

/-!
Verification development for the Rx-Renewal voice-session engine.

The definitions below are a shallow embedding of the TypeScript sources:
strings are lists of characters with JavaScript trim semantics, the
scheduler and session state are explicit records, and every handler is a
pure state-transition function mirroring the corresponding source branch.
-/

namespace Rx

/-! ## JavaScript string model -/

/-- Characters treated as whitespace by JavaScript trim (the subset that
occurs in this code base: space, tab, newline, carriage return). -/
def isJsWs (c : Char) : Bool :=
  c = ' ' || c = '\t' || c = '\n' || c = '\r'

/-- A JavaScript string, modelled as its list of characters. -/
abbrev JsStr := List Char

/-- JavaScript trim: drop whitespace from both ends. -/
def jsTrim (l : JsStr) : JsStr :=
  ((l.dropWhile isJsWs).reverse.dropWhile isJsWs).reverse

/-- Models the idiom given by optional chaining plus a default: the
expression formed by trimming the field when present and falling back to
the default when the field is absent or trims to the empty string. -/
def trimOrElse (x : Option JsStr) (d : JsStr) : JsStr :=
  match x with
  | none => d
  | some s => if jsTrim s = [] then d else jsTrim s

/-! ## Prescription data: sanitization and validation -/

/-- The patient record collected by the voice assistant. Fields are
optional strings because the remote model populates the tool-call
arguments without any contractual typing guarantee. -/
structure PrescriptionRequest where
  fullName : Option JsStr
  dateOfBirth : Option JsStr
  allergies : Option JsStr
  currentMedications : Option JsStr
  renewalRequest : Option JsStr
  whatsappNumber : Option JsStr
  pharmacy : Option JsStr
deriving DecidableEq

/-- The literal fallback for the allergies field. -/
def noneChars : JsStr := "None".toList

/-- Embedding of sanitizeData: trim every field, defaulting missing or
blank fields to the empty string, except allergies which defaults to
the literal string None. -/
def sanitizeData (d : PrescriptionRequest) : PrescriptionRequest :=
  { fullName := some (trimOrElse d.fullName [])
    dateOfBirth := some (trimOrElse d.dateOfBirth [])
    allergies := some (trimOrElse d.allergies noneChars)
    currentMedications := some (trimOrElse d.currentMedications [])
    renewalRequest := some (trimOrElse d.renewalRequest [])
    whatsappNumber := some (trimOrElse d.whatsappNumber [])
    pharmacy := some (trimOrElse d.pharmacy []) }

def fullNameErrorMsg : String := "Full name must be at least 2 characters"

def dobErrorMsg : String := "Date of birth is required"

def whatsappErrorMsg : String := "Please provide a valid WhatsApp number"

def pharmacyErrorMsg : String := "Pharmacy name is required"

def allergiesErrorMsg : String :=
  "Allergies information is required (use \"None\" if no allergies)"

def medicationsErrorMsg : String := "Current medications are required"

def renewalErrorMsg : String :=
  "Renewal request must specify which medication(s) need renewal"

/-- Characters accepted by the WhatsApp-number pattern: digits,
whitespace, minus, plus and parentheses. -/
def isPhoneChar (c : Char) : Bool :=
  c.isDigit || isJsWs c || c = '-' || c = '+' || c = '(' || c = ')'

/-- The phone pattern: one or more accepted characters spanning the
whole string. -/
def phoneRegexTest (s : JsStr) : Bool :=
  !s.isEmpty && s.all isPhoneChar

/-- Falsiness of an optional string in JavaScript: absent or empty. -/
def falsyStr (x : Option JsStr) : Bool :=
  match x with
  | none => true
  | some s => s.isEmpty

structure ValidationResult where
  isValid : Bool
  errors : List String
deriving DecidableEq

/-- The error list accumulated by validatePrescriptionData, with the
per-field checks in source order. -/
def validationErrorsOf (d : PrescriptionRequest) : List String :=
  (if falsyStr d.fullName || (jsTrim (d.fullName.getD [])).length < 2 then
      [fullNameErrorMsg] else []) ++
  (if falsyStr d.dateOfBirth || (jsTrim (d.dateOfBirth.getD [])).length = 0 then
      [dobErrorMsg] else []) ++
  (if falsyStr d.whatsappNumber || !phoneRegexTest (d.whatsappNumber.getD []) then
      [whatsappErrorMsg] else []) ++
  (if falsyStr d.pharmacy || (jsTrim (d.pharmacy.getD [])).length < 2 then
      [pharmacyErrorMsg] else []) ++
  (if falsyStr d.allergies || (jsTrim (d.allergies.getD [])).length = 0 then
      [allergiesErrorMsg] else []) ++
  (if falsyStr d.currentMedications || (jsTrim (d.currentMedications.getD [])).length < 2 then
      [medicationsErrorMsg] else []) ++
  (if falsyStr d.renewalRequest || (jsTrim (d.renewalRequest.getD [])).length < 2 then
      [renewalErrorMsg] else [])

/-- Embedding of validatePrescriptionData: the result is valid exactly
when the collected error list is empty. -/
def validatePrescriptionData (d : PrescriptionRequest) : ValidationResult :=
  { isValid := (validationErrorsOf d).length = 0, errors := validationErrorsOf d }

/-! ## App view state and the data-collected handler -/

/-- The page-level state of the prescription view. -/
inductive AppState
  | WELCOME
  | CONNECTING
  | ACTIVE
  | REVIEW
  | PAYMENT
  | SEND
  | ERROR
deriving DecidableEq

def incompleteErrorMsg : String := "Some information appears incomplete. Please try again."

/-- The observable outcome of handleDataCollected: the stored record,
the surfaced validation errors and message, and the resulting view
state. -/
structure CollectResult where
  collectedData : Option PrescriptionRequest
  validationErrors : List String
  errorMsg : Option String
  appState : AppState
deriving DecidableEq

/-- Embedding of handleDataCollected: sanitize, validate, then either
store the sanitized record and show the review screen, or surface the
validation errors in the error screen. -/
def handleDataCollected (d : PrescriptionRequest) : CollectResult :=
  if (validatePrescriptionData (sanitizeData d)).isValid then
    { collectedData := some (sanitizeData d)
      validationErrors := []
      errorMsg := none
      appState := AppState.REVIEW }
  else
    { collectedData := none
      validationErrors := (validatePrescriptionData (sanitizeData d)).errors
      errorMsg := some incompleteErrorMsg
      appState := AppState.ERROR }

/-! ## Codec

Modelled from the spec: the audio codec utilities (the pcm-blob encoder
and decodeAudioData in the utils module) are not present under src; only
their callers are. Per the spec the wire format is raw little-endian
16-bit PCM of normalized samples, deterministic and lossy only to sample
quantization. A normalized sample is quantized to a signed 16-bit level
and decoded back by dividing by 2^15. -/

/-- Modelled from the spec: quantize one normalized sample to a signed
16-bit PCM level. -/
def encodeSample (s : ℚ) : ℤ :=
  max (-32768) (min 32767 ⌊s * 32768⌋)

/-- Modelled from the spec: map a signed 16-bit PCM level back to a
normalized sample. -/
def decodeSample (n : ℤ) : ℚ := (n : ℚ) / 32768

/-- Modelled from the spec: encode a PCM frame sample by sample. -/
def encode (xs : List ℚ) : List ℤ := xs.map encodeSample

/-- Modelled from the spec: decode a wire payload sample by sample. -/
def decode (ns : List ℤ) : List ℚ := ns.map decodeSample

/-! ## Playback scheduler -/

/-- The start times computed by the playback scheduler for a sequence of
chunks, each given as (playback clock at arrival, duration): the next
start time is clamped to the live clock, the chunk starts there, and the
chunk duration is then added. -/
def schedStarts : ℚ → List (ℚ × ℚ) → List ℚ
  | _, [] => []
  | t, (c, d) :: rest => max t c :: schedStarts (max t c + d) rest

/-! ## Live-session state -/

/-- A resource-release step performed during teardown. -/
inductive ReleaseAction
  | stopScheduled (ids : Finset ℕ)
  | stopTracks
  | disconnectSource
  | disconnectProcessor
  | suspendInputCtx
  | closeSession
  | closeContext
deriving DecidableEq

/-- The mutable refs and react state of the live session hook. The input
audio context is absent, running, or suspended (some true = running);
the scheduled set holds the ids of the active playback sources. -/
structure LiveState where
  isSessionActive : Bool
  audioStream : Bool
  sourceNode : Bool
  processorNode : Bool
  inputCtx : Option Bool
  outputCtxPresent : Bool
  sessionOpen : Bool
  scheduled : Finset ℕ
  nextStartTime : ℚ
  isConnected : Bool
  isSpeaking : Bool
  volume : ℚ
deriving DecidableEq

/-- Embedding of stopSession: clear the session-active flag, stop and
clear all scheduled sources, release the capture stream and nodes,
suspend a running input context, close the session, and reset the react
state. The second component lists the release actions performed, each
guarded by presence of its resource. -/
def stopSession (st : LiveState) : LiveState × List ReleaseAction :=
  ({ st with
      isSessionActive := false
      scheduled := ∅
      audioStream := false
      sourceNode := false
      processorNode := false
      inputCtx := st.inputCtx.map (fun _ => false)
      sessionOpen := false
      isConnected := false
      isSpeaking := false
      volume := 0 },
   (if st.scheduled = ∅ then [] else [ReleaseAction.stopScheduled st.scheduled]) ++
   (if st.audioStream then [ReleaseAction.stopTracks] else []) ++
   (if st.sourceNode then [ReleaseAction.disconnectSource] else []) ++
   (if st.processorNode then [ReleaseAction.disconnectProcessor] else []) ++
   (if st.inputCtx = some true then [ReleaseAction.suspendInputCtx] else []) ++
   (if st.sessionOpen then [ReleaseAction.closeSession] else []))

/-- The state before any session was ever started: no resources held. -/
def initialState : LiveState :=
  { isSessionActive := false
    audioStream := false
    sourceNode := false
    processorNode := false
    inputCtx := none
    outputCtxPresent := false
    sessionOpen := false
    scheduled := ∅
    nextStartTime := 0
    isConnected := false
    isSpeaking := false
    volume := 0 }

/-- The state right after a successful session start: resources held,
playback timeline reset, nothing scheduled yet. -/
def startState : LiveState :=
  { isSessionActive := true
    audioStream := true
    sourceNode := true
    processorNode := true
    inputCtx := some true
    outputCtxPresent := true
    sessionOpen := true
    scheduled := ∅
    nextStartTime := 0
    isConnected := true
    isSpeaking := false
    volume := 0 }

/-- Idle means: disconnected, silent, zero volume, session inactive, and
no capture, node, source or channel resource held. -/
def isIdle (st : LiveState) : Prop :=
  st.isConnected = false ∧ st.isSpeaking = false ∧ st.volume = 0 ∧
  st.isSessionActive = false ∧ st.scheduled = ∅ ∧ st.audioStream = false ∧
  st.sourceNode = false ∧ st.processorNode = false ∧ st.sessionOpen = false

/-- Embedding of the interrupted branch of onmessage: stop every
scheduled source (returned as the cancelled set), clear the set, reset
the next start time to zero and clear the speaking indicator. -/
def onInterrupted (st : LiveState) : LiveState × Finset ℕ :=
  ({ st with scheduled := ∅, nextStartTime := 0, isSpeaking := false },
   st.scheduled)

/-- The start time the scheduler would assign to a chunk arriving at the
given playback clock: the next start time clamped to the clock. -/
def scheduledStart (st : LiveState) (clock : ℚ) : ℚ :=
  max st.nextStartTime clock

/-- The events delivered to the live session: a decoded audio chunk (with
the playback clock at arrival, its duration and a fresh source id), the
natural completion of a source, an interruption signal, and a user stop. -/
inductive ServerEvent
  | audio (clock dur : ℚ) (id : ℕ)
  | ended (id : ℕ)
  | interrupted
  | stop

/-- Embedding of the audio-output and interrupted branches of onmessage,
the ended listener of each source, and the user stop path, as one step
function on the live-session state. Note the audio branch is guarded only
by presence of the output context, not by the session-active flag. -/
def applyServerEvent (st : LiveState) : ServerEvent → LiveState
  | ServerEvent.audio c d i =>
    if st.outputCtxPresent then
      { st with
          isSpeaking := true
          nextStartTime := max st.nextStartTime c + d
          scheduled := insert i st.scheduled }
    else st
  | ServerEvent.ended i =>
    { st with
        scheduled := st.scheduled.erase i
        isSpeaking := if st.scheduled.erase i = ∅ then false else st.isSpeaking }
  | ServerEvent.interrupted => (onInterrupted st).1
  | ServerEvent.stop => (stopSession st).1

/-- Embedding of processor.onaudioprocess: when the session-active flag
is cleared the frame is discarded; otherwise the volume state is updated
and the encoded frame is sent to the channel. The source computes the
root mean square for the visualizer; the stored volume here is its
square (the mean of the squared samples), since the claims never inspect
the displayed value. -/
def onAudioProcess (st : LiveState) (frame : List ℚ) :
    LiveState × Option (List ℤ) :=
  if st.isSessionActive then
    ({ st with volume := (frame.map (fun x => x * x)).sum / frame.length },
     some (encode frame))
  else (st, none)

/-! ## Tool dispatch -/

def submitToolName : String := "submitPrescriptionRequest"

def requestPaymentToolName : String := "requestPayment"

/-- A tool response sent back over the channel. -/
structure ToolResp where
  id : String
  name : String
  result : String
deriving DecidableEq

/-- A function call received by the live-session hook variant: the tool
name, the call id, and the untyped arguments. -/
structure LiveFC where
  name : String
  id : String
  args : PrescriptionRequest
deriving DecidableEq

/-- A function call received by the standalone app variant; only the
patient-name argument is observable (it is interpolated into a log). -/
structure AppFC where
  name : String
  id : String
  patientName : String
deriving DecidableEq

def successResult : String := "Success"

/-- Embedding of the toolCall branch of the live-session hook: scan the
calls in order; the first call named submitPrescriptionRequest is handed
to the data-collected handler, answered with a Success response, and the
session is stopped, skipping any remaining calls; calls with any other
name are skipped without a response. Returns the post state, the
responses sent, and the collect outcome if any. -/
def liveOnToolCall (st : LiveState) :
    List LiveFC → LiveState × List ToolResp × Option CollectResult
  | [] => (st, [], none)
  | fc :: rest =>
    if fc.name = submitToolName then
      ((stopSession st).1,
       [{ id := fc.id, name := fc.name, result := successResult }],
       some (handleDataCollected fc.args))
    else liveOnToolCall st rest

/-- The outcomes of the external integration calls made by the
submitPrescriptionRequest handler. -/
structure ExecOutcome where
  emailSuccess : Bool
  whatsappSuccess : Bool
  whatsappMessage : String
deriving DecidableEq

/-- What executeTool produces: the response result string, the log lines
added, and whether the payment prompt was shown. -/
structure ExecResult where
  result : String
  logs : List String
  showPayment : Bool
deriving DecidableEq

def paymentAckResult : String :=
  "Payment link displayed to user. Waiting for user confirmation."

def submitOkResult : String :=
  "Request processed successfully. Notifications sent to Dr. Miller."

def toolNotFoundResult : String := "Tool not found"

def initiatingPaymentLog : String := "Initiating Payment Request..."

def emailFailedLog : String := "Email Notification: Failed"

def emailSentLog : String := "Email Notification: Sent"

/-- Embedding of executeTool from the standalone app: requestPayment
shows the payment prompt and acknowledges; submitPrescriptionRequest
runs both notification integrations, logs their outcomes, and returns a
fixed success result regardless of those outcomes; any other name yields
the tool-not-found result. -/
def executeTool (name : String) (patientName : String) (o : ExecOutcome) :
    ExecResult :=
  if name = requestPaymentToolName then
    { result := paymentAckResult
      logs := [initiatingPaymentLog]
      showPayment := true }
  else if name = submitToolName then
    { result := submitOkResult
      logs := ["Processing renewal for " ++ patientName ++ "...",
               if o.emailSuccess then emailSentLog else emailFailedLog,
               "WhatsApp Notification: " ++
                 (if o.whatsappSuccess then "Sent" else "Failed") ++
                 " (" ++ o.whatsappMessage ++ ")"]
      showPayment := false }
  else
    { result := toolNotFoundResult, logs := [], showPayment := false }

/-- Embedding of the toolCall branch of the standalone app onmessage:
every call is executed in order and answered with a response carrying
its own id and the result produced by executeTool. -/
def appToolResponses (outcome : AppFC → ExecOutcome) (calls : List AppFC) :
    List ToolResp :=
  calls.map (fun fc =>
    { id := fc.id
      name := fc.name
      result := (executeTool fc.name fc.patientName (outcome fc)).result })

def defaultAppFC : AppFC := { name := "", id := "", patientName := "" }

def defaultToolResp : ToolResp := { id := "", name := "", result := "" }

/-- The audio refs of the standalone app component. -/
structure AppAudioState where
  processorNode : Bool
  inputSourceNode : Bool
  audioCtx : Bool
  sources : Finset ℕ
deriving DecidableEq

/-- Embedding of cleanupAudio from the standalone app: disconnect and
null both nodes, close and null the context, stop and clear the source
set, each step guarded by presence of its resource. -/
def cleanupAudio (st : AppAudioState) : AppAudioState × List ReleaseAction :=
  ({ processorNode := false
     inputSourceNode := false
     audioCtx := false
     sources := ∅ },
   (if st.processorNode then [ReleaseAction.disconnectProcessor] else []) ++
   (if st.inputSourceNode then [ReleaseAction.disconnectSource] else []) ++
   (if st.audioCtx then [ReleaseAction.closeContext] else []) ++
   (if st.sources = ∅ then [] else [ReleaseAction.stopScheduled st.sources]))

/-! ## Concrete example values used by witnesses and counterexamples -/

/-- The §8 scenario: three chunks of durations one half, three tenths and
two fifths of a second, all arriving while the playback clock is zero. -/
def chunks3 : List (ℚ × ℚ) := [(0, 1/2), (0, 3/10), (0, 2/5)]

/-- Two one-second chunks, the second arriving after the playback clock
has already run past the end of the first. -/
def chunksLate : List (ℚ × ℚ) := [(0, 1), (10, 1)]

/-- A short PCM frame with samples at both range limits. -/
def pcmExample : List ℚ := [1/2, -1, 1, 0]

def corsMsg : String := "Network request failed (likely CORS). Setup requires backend proxy."

def okMsg : String := "WhatsApp sent successfully"

def janeDoe : String := "Jane Doe"

/-- Both notification integrations failing. -/
def failOutcome : ExecOutcome :=
  { emailSuccess := false, whatsappSuccess := false, whatsappMessage := corsMsg }

/-- Both notification integrations succeeding. -/
def okOutcome : ExecOutcome :=
  { emailSuccess := true, whatsappSuccess := true, whatsappMessage := okMsg }

def twoSpaces : JsStr := "  ".toList

def exFullNamePadded : JsStr := "John Smith ".toList

def exFullName : JsStr := "John Smith".toList

def exDob : JsStr := "9-1-1971".toList

def exMeds : JsStr := "Atorvastatin 20mg".toList

def exRenewal : JsStr := "Atorvastatin".toList

def exPhone : JsStr := "+1 613 854 7845".toList

def exPharmacy : JsStr := "Shoppers Drug Mart".toList

/-- A complete, valid record whose full name carries a trailing space. -/
def dPadded : PrescriptionRequest :=
  { fullName := some exFullNamePadded
    dateOfBirth := some exDob
    allergies := some noneChars
    currentMedications := some exMeds
    renewalRequest := some exRenewal
    whatsappNumber := some exPhone
    pharmacy := some exPharmacy }

/-- The same record already in sanitized form. -/
def dClean : PrescriptionRequest :=
  { fullName := some exFullName
    dateOfBirth := some exDob
    allergies := some noneChars
    currentMedications := some exMeds
    renewalRequest := some exRenewal
    whatsappNumber := some exPhone
    pharmacy := some exPharmacy }

/-- A record with a whitespace-only allergies field. -/
def dBlankAllergies : PrescriptionRequest :=
  { fullName := some exFullName
    dateOfBirth := some exDob
    allergies := some twoSpaces
    currentMedications := some exMeds
    renewalRequest := some exRenewal
    whatsappNumber := some exPhone
    pharmacy := some exPharmacy }

/-- An empty argument record. -/
def blankRequest : PrescriptionRequest :=
  { fullName := none
    dateOfBirth := none
    allergies := none
    currentMedications := none
    renewalRequest := none
    whatsappNumber := none
    pharmacy := none }

/-- A single requestPayment call as the live-session hook would see it. -/
def payFC : LiveFC :=
  { name := requestPaymentToolName, id := "call-1", args := blankRequest }

/-- A submitPrescriptionRequest call carrying the padded record. -/
def submitFC : LiveFC :=
  { name := submitToolName, id := "call-2", args := dPadded }

/-- The live state after the user stopped the session. -/
def stoppedState : LiveState := (stopSession startState).1

theorem dropWhile_dropWhile {α : Type} (p : α → Bool) :
    ∀ l : List α, (l.dropWhile p).dropWhile p = l.dropWhile p := by
  intro l
  induction l with
  | nil => rfl
  | cons a t ih =>
    by_cases h : p a = true
    · simp [List.dropWhile, h, ih]
    · simp [List.dropWhile, h]

theorem dropWhile_append_singleton {α : Type} (p : α → Bool) (x : α)
    (hx : p x = false) :
    ∀ l : List α, ∃ s, List.dropWhile p (l ++ [x]) = s ++ [x] := by
  intro l
  induction l with
  | nil => exact ⟨[], by simp [List.dropWhile, hx]⟩
  | cons a t ih =>
    by_cases h : p a = true
    · obtain ⟨s, hs⟩ := ih
      exact ⟨s, by simp [List.dropWhile, h, hs]⟩
    · exact ⟨a :: t, by simp [List.dropWhile, h]⟩

theorem jsTrim_idempotent (l : JsStr) : jsTrim (jsTrim l) = jsTrim l := by
  unfold jsTrim
  cases hd : List.dropWhile isJsWs l with
  | nil => simp [List.dropWhile]
  | cons a t =>
    have ha : isJsWs a = false := by
      have := List.head?_dropWhile_not isJsWs l
      rw [hd] at this
      simpa using this
    obtain ⟨s, hs⟩ := dropWhile_append_singleton isJsWs a ha t.reverse
    have hrev : (a :: t).reverse = t.reverse ++ [a] := by simp
    rw [hrev, hs]
    have h1 : (s ++ [a]).reverse = a :: s.reverse := by simp
    rw [h1]
    have h2 : List.dropWhile isJsWs (a :: s.reverse) = a :: s.reverse := by
      simp [List.dropWhile, ha]
    rw [h2]
    have h3 : (a :: s.reverse).reverse = s ++ [a] := by simp
    rw [h3, ← hs, dropWhile_dropWhile, hs, h1]

theorem jsTrim_trimOrElse (x : Option JsStr) (d : JsStr)
    (hd : jsTrim d = d) : jsTrim (trimOrElse x d) = trimOrElse x d := by
  cases x with
  | none => simpa [trimOrElse] using hd
  | some s =>
    by_cases h : jsTrim s = []
    · simpa [trimOrElse, h] using hd
    · simp [trimOrElse, h, jsTrim_idempotent]

theorem trimOrElse_stable (x : Option JsStr) (d : JsStr)
    (hd : jsTrim d = d) :
    trimOrElse (some (trimOrElse x d)) d = trimOrElse x d := by
  have hfix := jsTrim_trimOrElse x d hd
  by_cases h : trimOrElse x d = []
  · rw [show trimOrElse (some (trimOrElse x d)) d
        = if jsTrim (trimOrElse x d) = [] then d else jsTrim (trimOrElse x d) from rfl]
    rw [hfix]
    simp only [h, if_pos rfl]
    cases x with
    | none => simpa [trimOrElse] using h.symm
    | some s =>
      by_cases hs : jsTrim s = []
      · simpa [trimOrElse, hs] using h.symm
      · exact absurd (by simpa [trimOrElse, hs] using h) hs
  · rw [show trimOrElse (some (trimOrElse x d)) d
        = if jsTrim (trimOrElse x d) = [] then d else jsTrim (trimOrElse x d) from rfl]
    rw [hfix]
    simp [h]

theorem jsTrim_nil : jsTrim [] = [] := rfl

theorem jsTrim_noneChars : jsTrim noneChars = noneChars := by decide

theorem trimOrElse_none_ne_nil (x : Option JsStr) :
    trimOrElse x noneChars ≠ [] := by
  cases x with
  | none => decide
  | some s =>
    by_cases h : jsTrim s = []
    · simp [trimOrElse, h]; decide
    · simp [trimOrElse, h]

theorem sanitizeData_idempotent (d : PrescriptionRequest) :
    sanitizeData (sanitizeData d) = sanitizeData d := by
  simp [sanitizeData, trimOrElse_stable _ _ jsTrim_nil,
    trimOrElse_stable _ _ jsTrim_noneChars]

theorem mem_ite_singleton {c : Bool} {m x : String}
    (h : x ∈ (if c then [m] else [])) : c = true ∧ x = m := by
  cases c <;> simp_all

theorem validate_sanitized_no_allergies_error (d : PrescriptionRequest) :
    allergiesErrorMsg ∉ (validatePrescriptionData (sanitizeData d)).errors := by
  intro h
  have ha := trimOrElse_none_ne_nil d.allergies
  have hfix := jsTrim_trimOrElse d.allergies noneChars jsTrim_noneChars
  simp only [validatePrescriptionData, validationErrorsOf, List.mem_append] at h
  rcases h with ((((((h | h) | h) | h) | h) | h) | h) <;>
    rcases mem_ite_singleton h with ⟨hc, he⟩
  · exact absurd he (by decide)
  · exact absurd he (by decide)
  · exact absurd he (by decide)
  · exact absurd he (by decide)
  · rw [Bool.or_eq_true] at hc
    rcases hc with hc | hc
    · have : (sanitizeData d).allergies = some (trimOrElse d.allergies noneChars) := rfl
      rw [this] at hc
      simp only [falsyStr, List.isEmpty_iff] at hc
      exact ha hc
    · have : (sanitizeData d).allergies = some (trimOrElse d.allergies noneChars) := rfl
      rw [this] at hc
      simp only [Option.getD_some, hfix, decide_eq_true_eq, List.length_eq_zero] at hc
      exact ha hc
  · exact absurd he (by decide)
  · exact absurd he (by decide)

theorem schedStarts_getD_succ :
    ∀ (chunks : List (ℚ × ℚ)) (t : ℚ) (i : ℕ), i + 1 < chunks.length →
      (schedStarts t chunks).getD (i + 1) 0 =
        max ((schedStarts t chunks).getD i 0 + (chunks.getD i (0, 0)).2)
            ((chunks.getD (i + 1) (0, 0)).1) := by
  intro chunks
  induction chunks with
  | nil => intro t i h; simp at h
  | cons hd rest ih =>
    obtain ⟨c, d⟩ := hd
    intro t i h
    cases i with
    | zero =>
      cases rest with
      | nil => simp at h
      | cons hd2 r2 =>
        obtain ⟨c2, d2⟩ := hd2
        simp [schedStarts, List.getD]
    | succ j =>
      have hj : j + 1 < rest.length := by simpa using h
      simpa [schedStarts, List.getD] using ih (max t c + d) j hj

/-- C1 (amended): the playback scheduler keeps nextStartTime, clamps it
to the live playback clock on each chunk, starts the chunk there and
advances by its duration; hence the computed start of chunk i+1 equals
start i plus duration i whenever chunk i+1 arrives while the clock has
not yet passed that point, and the first start is at least the clock at
first arrival. Without the in-time condition the clamp can move a start
later, so exact contiguity is conditional. -/
theorem scheduler_contiguous_starts (chunks : List (ℚ × ℚ)) (i : ℕ) :
    (i + 1 < chunks.length →
      (chunks.getD (i + 1) (0, 0)).1 ≤
        (schedStarts 0 chunks).getD i 0 + (chunks.getD i (0, 0)).2 →
      (schedStarts 0 chunks).getD (i + 1) 0 =
        (schedStarts 0 chunks).getD i 0 + (chunks.getD i (0, 0)).2) ∧
    (∀ c d rest, chunks = (c, d) :: rest →
      (chunks.getD 0 (0, 0)).1 ≤ (schedStarts 0 chunks).getD 0 0) := by
  constructor
  · intro h hin
    rw [schedStarts_getD_succ chunks 0 i h]
    exact max_eq_left hin
  · rintro c d rest rfl
    simp [schedStarts, List.getD]

/-- C1 witness: on the §8 scenario all three chunks arrive in time, the
computed starts are contiguous and the first start is at least the
clock. -/
theorem scheduler_contiguous_starts_witness :
    (schedStarts 0 chunks3).getD 1 0 =
      (schedStarts 0 chunks3).getD 0 0 + (chunks3.getD 0 (0, 0)).2 ∧
    (chunks3.getD 0 (0, 0)).1 ≤ (schedStarts 0 chunks3).getD 0 0 := by
  have h := scheduler_contiguous_starts chunks3 0
  refine ⟨h.1 (by norm_num [chunks3]) ?_, h.2 0 (1/2) [(0, 3/10), (0, 2/5)] rfl⟩
  norm_num [chunks3, schedStarts, List.getD]

/-- C1 counterexample: with a second chunk arriving at clock 10, well
after the first one-second chunk finished, the clamp schedules it at 10,
not at start 0 plus duration 0; the unconditional contiguity equation of
the claim fails. -/
theorem scheduler_contiguous_starts_counterexample :
    ¬ ((schedStarts 0 chunksLate).getD 1 0 =
        (schedStarts 0 chunksLate).getD 0 0 + (chunksLate.getD 0 (0, 0)).2) := by
  norm_num [chunksLate, schedStarts, List.getD]

/-- C3: on an Interrupted signal every scheduled source is stopped (the
cancelled set is exactly the active set), the active set is cleared, the
next start time is reset to zero and the speaking indicator drops; the
start the scheduler would assign to any chunk arriving afterwards is the
clamp of zero to the live clock, independent of the pre-interruption
timeline. -/
theorem interrupted_clears_playback (st : LiveState) :
    (onInterrupted st).2 = st.scheduled ∧
    (onInterrupted st).1.scheduled = ∅ ∧
    (onInterrupted st).1.nextStartTime = 0 ∧
    (onInterrupted st).1.isSpeaking = false ∧
    ∀ clock : ℚ, scheduledStart (onInterrupted st).1 clock = max 0 clock :=
  ⟨rfl, rfl, rfl, rfl, fun _ => rfl⟩

theorem speaking_invariant_step (st : LiveState) (e : ServerEvent)
    (h : st.isSpeaking = true ↔ st.scheduled ≠ ∅) :
    (applyServerEvent st e).isSpeaking = true ↔
      (applyServerEvent st e).scheduled ≠ ∅ := by
  cases e with
  | audio c d i =>
    by_cases ho : st.outputCtxPresent
    · simp [applyServerEvent, ho, Finset.insert_ne_empty]
    · simpa [applyServerEvent, ho] using h
  | ended i =>
    by_cases he : st.scheduled.erase i = ∅
    · simp [applyServerEvent, he]
    · have hs : st.scheduled ≠ ∅ := by
        intro hnil
        exact he (by rw [hnil]; exact Finset.erase_empty i)
      simp [applyServerEvent, he, h.mpr hs]
  | interrupted => simp [applyServerEvent, onInterrupted]
  | stop => simp [applyServerEvent, stopSession]

theorem speaking_invariant_run :
    ∀ (evts : List ServerEvent) (st : LiveState),
      (st.isSpeaking = true ↔ st.scheduled ≠ ∅) →
      ((evts.foldl applyServerEvent st).isSpeaking = true ↔
        (evts.foldl applyServerEvent st).scheduled ≠ ∅) := by
  intro evts
  induction evts with
  | nil => intro st h; exact h
  | cons e rest ih =>
    intro st h
    exact ih (applyServerEvent st e) (speaking_invariant_step st e h)

/-- C9: along any sequence of audio, ended, interrupted and stop events
processed from a fresh session, the speaking indicator is true exactly
when the set of scheduled playback sources is non-empty. -/
theorem speaking_iff_active_set (evts : List ServerEvent) :
    ((evts.foldl applyServerEvent startState).isSpeaking = true ↔
      (evts.foldl applyServerEvent startState).scheduled ≠ ∅) := by
  apply speaking_invariant_run
  simp [startState]

/-- C4: stopping a session leaves it idle; stopping again changes
nothing and performs no release action; stopping when no session was
ever started performs no release action; and the standalone app audio
cleanup is likewise release-free on a second call. The embedding is a
total function, so no path throws. -/
theorem stop_idempotent_no_double_release (st : LiveState) (a : AppAudioState) :
    isIdle (stopSession st).1 ∧
    (stopSession (stopSession st).1).1 = (stopSession st).1 ∧
    (stopSession (stopSession st).1).2 = [] ∧
    (stopSession initialState).2 = [] ∧
    (cleanupAudio (cleanupAudio a).1).2 = [] := by
  refine ⟨?_, ?_, ?_, ?_, ?_⟩
  · simp [stopSession, isIdle]
  · simp [stopSession]
  · cases h : st.inputCtx <;> simp [stopSession, h]
  · simp [stopSession, initialState]
  · simp [cleanupAudio]

/-- C6 counterexample: after stop the session-active flag is down, yet a
late audio message is still scheduled by the playback path (the
scheduled set grows), because that branch checks only the output
context, which stop never releases. -/
theorem stale_audio_still_scheduled_counterexample :
    stoppedState.isSessionActive = false ∧
    (applyServerEvent stoppedState (ServerEvent.audio 0 1 7)).scheduled ≠ ∅ := by
  constructor
  · rfl
  · have : (applyServerEvent stoppedState (ServerEvent.audio 0 1 7)).scheduled
        = insert 7 stoppedState.scheduled := by
      simp [applyServerEvent, stoppedState, stopSession, startState]
    rw [this]
    exact Finset.insert_ne_empty _ _

/-- C6 (amended): after stop() clears the session-active flag the
capture path discards its frame and sends nothing, as the claim states;
but the playback path performs no such check — it schedules a
late-arriving audio chunk whenever the output context exists, and stop()
never releases the output context — so the discard guarantee holds only
on the capture side. -/
theorem session_flag_gates_capture_only (st : LiveState) (frame : List ℚ)
    (c d : ℚ) (i : ℕ) :
    (st.isSessionActive = false → onAudioProcess st frame = (st, none)) ∧
    (st.outputCtxPresent = true →
      applyServerEvent st (ServerEvent.audio c d i) =
        { st with
            isSpeaking := true
            nextStartTime := max st.nextStartTime c + d
            scheduled := insert i st.scheduled }) ∧
    (stopSession st).1.outputCtxPresent = st.outputCtxPresent := by
  refine ⟨?_, ?_, rfl⟩
  · intro h
    simp [onAudioProcess, h]
  · intro h
    simp [applyServerEvent, h]

/-- C6 witness: in the concrete stopped state the capture path discards
its frame while the playback path still schedules source 7. -/
theorem session_flag_gates_capture_only_witness :
    onAudioProcess stoppedState [] = (stoppedState, none) ∧
    applyServerEvent stoppedState (ServerEvent.audio 0 1 7) =
      { stoppedState with
          isSpeaking := true
          nextStartTime := max stoppedState.nextStartTime 0 + 1
          scheduled := insert 7 stoppedState.scheduled } := by
  have h := session_flag_gates_capture_only stoppedState [] 0 1 7
  exact ⟨h.1 rfl, h.2.1 rfl⟩

theorem appToolResponses_getD_id (outcome : AppFC → ExecOutcome) :
    ∀ (calls : List AppFC) (j : ℕ),
      ((appToolResponses outcome calls).getD j defaultToolResp).id =
        (calls.getD j defaultAppFC).id := by
  intro calls
  induction calls with
  | nil => intro j; rfl
  | cons fc rest ih =>
    intro j
    cases j with
    | zero => rfl
    | succ k => simpa [appToolResponses, List.getD] using ih k

theorem liveOnToolCall_responses (st : LiveState) :
    ∀ lcalls : List LiveFC,
      (liveOnToolCall st lcalls).2.1 =
        match lcalls.find? (fun fc => fc.name = submitToolName) with
        | some fc => [{ id := fc.id, name := fc.name, result := successResult }]
        | none => [] := by
  intro lcalls
  induction lcalls with
  | nil => rfl
  | cons fc rest ih =>
    by_cases h : fc.name = submitToolName
    · rw [List.find?_cons_of_pos _ (by simpa using h)]
      simp [liveOnToolCall, h]
    · rw [List.find?_cons_of_neg _ (by simpa using h)]
      simpa [liveOnToolCall, h] using ih

/-- C2 (amended): in the standalone app every one of the k calls of a
tool-call event is answered with exactly one response carrying its own
call id, whatever the handler outcomes; in the live-session hook,
however, only the first call named submitPrescriptionRequest is
answered (with a Success response carrying its id) and every other call
is left without a response. -/
theorem tool_call_response_pairing (outcome : AppFC → ExecOutcome)
    (calls : List AppFC) (st : LiveState) (lcalls : List LiveFC) :
    (appToolResponses outcome calls).length = calls.length ∧
    (∀ j : ℕ, ((appToolResponses outcome calls).getD j defaultToolResp).id =
      (calls.getD j defaultAppFC).id) ∧
    ((liveOnToolCall st lcalls).2.1 =
      match lcalls.find? (fun fc => fc.name = submitToolName) with
      | some fc => [{ id := fc.id, name := fc.name, result := successResult }]
      | none => []) :=
  ⟨by simp [appToolResponses], appToolResponses_getD_id outcome calls,
   liveOnToolCall_responses st lcalls⟩

/-- C2 counterexample: a tool-call event with one call named
requestPayment reaches the live-session hook and receives zero
responses, not one. -/
theorem tool_call_response_pairing_counterexample :
    ¬ ((liveOnToolCall startState [payFC]).2.1.length = 1) := by
  decide

/-- C5 counterexample: when both notification integrations fail, the
submitPrescriptionRequest handler still answers with the fixed success
result — identical to the fully successful run — so the failure is not
reported as a failure result in that call's response. -/
theorem handler_failure_not_reported_counterexample :
    (executeTool submitToolName janeDoe failOutcome).result = submitOkResult ∧
    (executeTool submitToolName janeDoe failOutcome).result =
      (executeTool submitToolName janeDoe okOutcome).result := by
  decide

/-- C5 (amended): each call of a tool-call event is dispatched and
answered independently of every handler outcome; a notification failure
never changes the response result (it is identical under failure and
success) and is surfaced only in the session log, which records Failed
or Sent according to the outcome. -/
theorem handler_failure_isolated (outcome : AppFC → ExecOutcome)
    (calls : List AppFC) (name pn : String) (o o' : ExecOutcome) :
    (appToolResponses outcome calls).length = calls.length ∧
    (executeTool name pn o).result = (executeTool name pn o').result ∧
    (o.emailSuccess = false →
      emailFailedLog ∈ (executeTool submitToolName pn o).logs) ∧
    (o.emailSuccess = true →
      emailSentLog ∈ (executeTool submitToolName pn o).logs) := by
  refine ⟨by simp [appToolResponses], ?_, ?_, ?_⟩
  · unfold executeTool
    split_ifs <;> rfl
  · intro h
    have hne : ¬ (submitToolName = requestPaymentToolName) := by decide
    simp [executeTool, hne, h]
  · intro h
    have hne : ¬ (submitToolName = requestPaymentToolName) := by decide
    simp [executeTool, hne, h]

/-- C5 witness: the failed run logs the email failure, the successful
run logs the email success. -/
theorem handler_failure_isolated_witness :
    emailFailedLog ∈ (executeTool submitToolName janeDoe failOutcome).logs ∧
    emailSentLog ∈ (executeTool submitToolName janeDoe okOutcome).logs :=
  ⟨(handler_failure_isolated (fun _ => failOutcome) [] submitToolName janeDoe
      failOutcome okOutcome).2.2.1 rfl,
   (handler_failure_isolated (fun _ => okOutcome) [] submitToolName janeDoe
      okOutcome failOutcome).2.2.2 rfl⟩

/-- C7 (amended): the record stored by handleDataCollected is the
sanitized form of the tool-call arguments — equal to the arguments
field for field exactly when they are already sanitized — with the view
moving to the review screen; when validation fails no record is stored
and the errors are surfaced in the error screen; and the tool-call
branch hands the arguments to this handler, answers the call, and stops
the session, leaving no capture handle held. -/
theorem collected_record_after_submit (dd : PrescriptionRequest)
    (st : LiveState) (fc : LiveFC) (rest : List LiveFC) :
    ((validatePrescriptionData (sanitizeData dd)).isValid = true →
      handleDataCollected dd =
        { collectedData := some (sanitizeData dd)
          validationErrors := []
          errorMsg := none
          appState := AppState.REVIEW }) ∧
    ((validatePrescriptionData (sanitizeData dd)).isValid = false →
      handleDataCollected dd =
        { collectedData := none
          validationErrors := (validatePrescriptionData (sanitizeData dd)).errors
          errorMsg := some incompleteErrorMsg
          appState := AppState.ERROR }) ∧
    (sanitizeData dd = dd → (validatePrescriptionData dd).isValid = true →
      (handleDataCollected dd).collectedData = some dd) ∧
    (fc.name = submitToolName →
      (liveOnToolCall st (fc :: rest)).2.2 = some (handleDataCollected fc.args) ∧
      (liveOnToolCall st (fc :: rest)).1 = (stopSession st).1 ∧
      (liveOnToolCall st (fc :: rest)).1.audioStream = false ∧
      (liveOnToolCall st (fc :: rest)).1.isSessionActive = false) := by
  refine ⟨?_, ?_, ?_, ?_⟩
  · intro h
    simp [handleDataCollected, h]
  · intro h
    simp [handleDataCollected, h]
  · intro hs hv
    simp [handleDataCollected, hs, hv]
  · intro h
    simp [liveOnToolCall, h, stopSession]

/-- C7 witness: already-sanitized complete arguments are stored exactly
as given, and after the submit call the session holds no capture
stream. -/
theorem collected_record_after_submit_witness :
    (handleDataCollected dClean).collectedData = some dClean ∧
    (liveOnToolCall startState [submitFC]).1.audioStream = false := by
  have h := collected_record_after_submit dClean startState submitFC []
  exact ⟨h.2.2.1 (by decide) (by decide), (h.2.2.2 rfl).2.2.1⟩

/-- C7 counterexample: a complete, valid argument record with a trailing
space in the full name is accepted, but the stored record is its
sanitized form, which differs from the arguments — the emitted record
does not match the arguments exactly, and the view state becomes
REVIEW. -/
theorem collected_record_exact_match_counterexample :
    (handleDataCollected dPadded).collectedData = some (sanitizeData dPadded) ∧
    sanitizeData dPadded ≠ dPadded ∧
    (handleDataCollected dPadded).appState = AppState.REVIEW := by
  decide

/-- C10: sanitizeData always yields a non-empty allergies field,
substituting the literal None whenever the input allergies field is
missing, empty or whitespace-only; validation of a sanitized record
never reports the allergies error; and sanitizeData is idempotent. -/
theorem sanitize_allergies_safe (dd : PrescriptionRequest) :
    (∃ a, (sanitizeData dd).allergies = some a ∧ a ≠ []) ∧
    ((∀ s, dd.allergies = some s → jsTrim s = []) →
      (sanitizeData dd).allergies = some noneChars) ∧
    allergiesErrorMsg ∉ (validatePrescriptionData (sanitizeData dd)).errors ∧
    sanitizeData (sanitizeData dd) = sanitizeData dd := by
  refine ⟨⟨trimOrElse dd.allergies noneChars, rfl, trimOrElse_none_ne_nil _⟩,
    ?_, validate_sanitized_no_allergies_error dd, sanitizeData_idempotent dd⟩
  intro h
  cases hA : dd.allergies with
  | none => simp [sanitizeData, hA, trimOrElse]
  | some s => simp [sanitizeData, hA, trimOrElse, h s hA]

/-- C10 witness: a whitespace-only allergies field is replaced by the
literal None, and sanitizing the record twice equals sanitizing it
once. -/
theorem sanitize_allergies_safe_witness :
    (sanitizeData dBlankAllergies).allergies = some noneChars ∧
    sanitizeData (sanitizeData dBlankAllergies) = sanitizeData dBlankAllergies := by
  have h := sanitize_allergies_safe dBlankAllergies
  refine ⟨h.2.1 ?_, h.2.2.2⟩
  intro s hs
  cases Option.some.inj hs
  decide

theorem decodeSample_encodeSample (s : ℚ) (h1 : -1 ≤ s) (h2 : s ≤ 1) :
    |decodeSample (encodeSample s) - s| ≤ 1 / 32768 := by
  have hfl : ((⌊s * 32768⌋ : ℤ) : ℚ) ≤ s * 32768 := Int.floor_le _
  have hfl2 : s * 32768 < ⌊s * 32768⌋ + 1 := Int.lt_floor_add_one _
  have hlo : (-32768 : ℤ) ≤ ⌊s * 32768⌋ := by
    apply Int.le_floor.mpr
    push_cast
    nlinarith
  have hhi : ⌊s * 32768⌋ ≤ 32768 := by
    have hb : s * 32768 ≤ ((32768 : ℤ) : ℚ) := by push_cast; nlinarith
    simpa using Int.floor_le_floor hb
  rcases lt_or_eq_of_le hhi with hlt | heq
  · have hle : ⌊s * 32768⌋ ≤ 32767 := by omega
    have henc : encodeSample s = ⌊s * 32768⌋ := by
      unfold encodeSample
      rw [min_eq_right hle, max_eq_right hlo]
    rw [henc]
    unfold decodeSample
    rw [abs_le]
    constructor <;> linarith
  · have henc : encodeSample s = 32767 := by
      unfold encodeSample
      rw [heq]
      norm_num
    have hs1 : s = 1 := by
      rw [heq] at hfl
      push_cast at hfl
      linarith
    rw [henc, hs1]
    unfold decodeSample
    rw [abs_le]
    constructor <;> norm_num

theorem decode_encode_getD (xs : List ℚ) :
    ∀ i : ℕ, i < xs.length →
      (decode (encode xs)).getD i 0 = decodeSample (encodeSample (xs.getD i 0)) := by
  induction xs with
  | nil => intro i h; simp at h
  | cons x t ih =>
    intro i h
    cases i with
    | zero => rfl
    | succ k =>
      have hk : k < t.length := by simpa using h
      simpa [decode, encode, List.getD] using ih k hk

/-- C8: for every PCM frame of normalized samples, decoding its encoding
preserves the length, the encoder is deterministic (equal frames give
equal payloads), and every sample is reproduced within one 16-bit
quantization level. -/
theorem codec_roundtrip (xs : List ℚ) (h : ∀ s ∈ xs, -1 ≤ s ∧ s ≤ 1) :
    (decode (encode xs)).length = xs.length ∧
    (∀ ys : List ℚ, ys = xs → encode ys = encode xs) ∧
    ∀ i : ℕ, i < xs.length →
      |(decode (encode xs)).getD i 0 - xs.getD i 0| ≤ 1 / 32768 := by
  refine ⟨by simp [decode, encode], fun ys hy => by rw [hy], ?_⟩
  intro i hi
  rw [decode_encode_getD xs i hi]
  have hmem : xs.getD i 0 ∈ xs := by
    rw [List.getD_eq_getElem xs 0 hi]
    exact List.getElem_mem hi
  obtain ⟨hb1, hb2⟩ := h _ hmem
  exact decodeSample_encodeSample _ hb1 hb2

/-- C8 witness: the example frame, holding interior samples and the two
range limits, round-trips within one quantization level. -/
theorem codec_roundtrip_witness :
    (decode (encode pcmExample)).length = pcmExample.length ∧
    |(decode (encode pcmExample)).getD 2 0 - pcmExample.getD 2 0| ≤ 1 / 32768 := by
  have h := codec_roundtrip pcmExample ?_
  · exact ⟨h.1, h.2.2 2 (by norm_num [pcmExample])⟩
  · intro s hs
    simp [pcmExample] at hs
    rcases hs with h | h | h | h <;> rw [h] <;> norm_num

end Rx
